import Mathlib

/-!
# Shallow embedding of `persistable.ts` (the `Persistable` decorator)

This file models the persistence-interception engine of the repository:

* `JSValue` — the universe of JavaScript values the engine manipulates;
* `isSerializable` — the recursive serializability check (src/persistable.ts,
  `isSerializable`, lines 175–205);
* `toJson` — the composition `JSON.parse ∘ JSON.stringify`, modelled at the
  level of JSON trees (the store's `value TEXT` column holds the serialized
  text; we keep the parse of that text, which determines every observable
  behaviour of the engine);
* `getSerializableProperties`, `wrappedProps` — the Property Registry and the
  wrapping decision of `setupPropertyPersistence` (lines 47–95);
* `FieldState`, `getStep`, `setStep` — the per-field interceptor closure state
  (`value`, `initialized`) and the installed get/set accessors
  (`makePropertyPersistent`, lines 97–173);
* `attach` — the constructor / `initializeStorage` sequence (lines 18–45).

Store faults (a SQL statement throwing) are modelled by explicit fault flags,
since the engine only observes them through its `try`/`catch` blocks.
-/

namespace Persistable

/-- The universe of JavaScript values relevant to the engine.

* `vNum` is a finite number; `vNumNonFinite` stands for the non-finite
  numbers `NaN`, `+Infinity` and `-Infinity`, which this engine cannot tell
  apart: all three satisfy `typeof value === "number"` and all three
  `JSON.stringify` to the text `null`.
* `vObj` is a plain object (`value.constructor === Object`), with its
  enumerable own properties in order.
* `vDate` is a `Date` (an object whose constructor is `Date`, carrying an
  epoch timestamp).
* `vToJSONObj j` is a non-plain, non-`Date` object whose `toJSON()` method
  returns `j`.
* `vFun` is a plain callable; `vFunToJSON j` is a callable that carries a
  `toJSON` property returning `j` (reachable in the source: the `typeof
  value.toJSON === "function"` check runs for functions too).
* `vClassInst` is an instance of a prototype-based class without `toJSON`,
  with its enumerable own properties. -/
inductive JSValue where
  | vNull
  | vUndefined
  | vStr (s : String)
  | vNum (n : Int)
  | vNumNonFinite
  | vBool (b : Bool)
  | vArr (elems : List JSValue)
  | vObj (fields : List (String × JSValue))
  | vDate (epochMillis : Int)
  | vToJSONObj (json : JSValue)
  | vFun
  | vFunToJSON (json : JSValue)
  | vClassInst (fields : List (String × JSValue))

/-- `typeof v === "function"` : the check used both by the Registry's
prototype walk and by `setupPropertyPersistence` before wrapping. -/
def isFunction : JSValue → Bool
  | .vFun => true
  | .vFunToJSON _ => true
  | _ => false

mutual

/-- `isSerializable` from src/persistable.ts lines 175–205, following the
source's branch order: primitives, then `Array.isArray` (every element),
then plain objects (`constructor === Object`, every value), then
`instanceof Date`, then a callable `toJSON` property, else `false`. -/
def isSerializable : JSValue → Bool
  | .vNull => true
  | .vUndefined => true
  | .vStr _ => true
  | .vNum _ => true
  | .vNumNonFinite => true
  | .vBool _ => true
  | .vArr xs => isSerializableList xs
  | .vObj fs => isSerializableFields fs
  | .vDate _ => true
  | .vToJSONObj _ => true
  | .vFun => false
  | .vFunToJSON _ => true
  | .vClassInst _ => false

/-- `value.every((item) => this.isSerializable(item))` over an array. -/
def isSerializableList : List JSValue → Bool
  | [] => true
  | x :: xs => isSerializable x && isSerializableList xs

/-- `Object.values(value).every((val) => this.isSerializable(val))` over a
plain object's fields. -/
def isSerializableFields : List (String × JSValue) → Bool
  | [] => true
  | kv :: fs => isSerializable kv.2 && isSerializableFields fs

end

/-- Abstract model of `Date.prototype.toJSON` (the engine stores
`JSON.stringify(date)`, which is the quoted ISO-8601 rendering of the
timestamp): an injective textual encoding of the epoch timestamp. -/
def dateToIso (epochMillis : Int) : String :=
  "1970-ms:" ++ toString epochMillis

mutual

/-- The JSON tree that `JSON.parse (JSON.stringify v)` yields, or `none` when
`JSON.stringify v` is `undefined` (top-level `undefined` or a bare function),
in which case the SQL parameter binding throws. Follows ECMA-262
`SerializeJSONProperty`: a callable `toJSON` is invoked first (this covers
`Date`, whose `toJSON` yields the ISO string); the non-finite numbers `NaN`
and `±Infinity` serialize to the text `null`; inside arrays an
unserializable element becomes `null`; inside objects it is dropped; class
instances serialize their enumerable own properties like plain objects. -/
def toJson : JSValue → Option JSValue
  | .vNull => some .vNull
  | .vUndefined => none
  | .vStr s => some (.vStr s)
  | .vNum n => some (.vNum n)
  | .vNumNonFinite => some .vNull
  | .vBool b => some (.vBool b)
  | .vArr xs => some (.vArr (toJsonList xs))
  | .vObj fs => some (.vObj (toJsonFields fs))
  | .vDate t => some (.vStr (dateToIso t))
  | .vToJSONObj j => toJson j
  | .vFun => none
  | .vFunToJSON j => toJson j
  | .vClassInst fs => some (.vObj (toJsonFields fs))

/-- Array elements: an element stringifying to `undefined` becomes `null`. -/
def toJsonList : List JSValue → List JSValue
  | [] => []
  | x :: xs =>
    (match toJson x with
     | some t => t
     | none => .vNull) :: toJsonList xs

/-- Object properties: a value stringifying to `undefined` is dropped. -/
def toJsonFields : List (String × JSValue) → List (String × JSValue)
  | [] => []
  | (k, v) :: fs =>
    match toJson v with
    | some t => (k, t) :: toJsonFields fs
    | none => toJsonFields fs

end

mutual

/-- The JSON-faithful values: those whose serialize/deserialize round trip is
the identity (`null`, strings, finite numbers, booleans, and arrays / plain
objects built from such). `undefined`, the non-finite numbers (which
serialize to `null`), `Date`, `toJSON` carriers, callables and class
instances are not in this set. -/
def jsonFaithful : JSValue → Bool
  | .vNull => true
  | .vStr _ => true
  | .vNum _ => true
  | .vBool _ => true
  | .vArr xs => jsonFaithfulList xs
  | .vObj fs => jsonFaithfulFields fs
  | _ => false

/-- All elements JSON-faithful. -/
def jsonFaithfulList : List JSValue → Bool
  | [] => true
  | x :: xs => jsonFaithful x && jsonFaithfulList xs

/-- All field values JSON-faithful. -/
def jsonFaithfulFields : List (String × JSValue) → Bool
  | [] => true
  | kv :: fs => jsonFaithful kv.2 && jsonFaithfulFields fs

end

/-! ## Property Registry (`getSerializableProperties`, lines 67–95) -/

/-- An object instance as the Registry sees it: its own enumerable properties
(`Object.getOwnPropertyNames(this)`, in order, with current values), and the
prototype-chain levels that the `while` loop of `getSerializableProperties`
visits (shallow to deep, each with its own property names and values). -/
structure Instance where
  ownProps : List (String × JSValue)
  protoProps : List (List (String × JSValue))

/-- `prop.startsWith("_")` for the one-character private marker: the name's
first character is the underscore. (Stated on the first character so that it
evaluates inside the kernel; for a single-character pattern this is exactly
`String.startsWith`.) -/
def startsWithUnderscore (p : String) : Bool :=
  match p.data with
  | [] => false
  | c :: _ => c == '_'

/-- `Set.add` insertion-order semantics: append a name unless present. -/
def addUnique (acc : List String) (p : String) : List String :=
  if acc.contains p then acc else acc ++ [p]

/-- `getSerializableProperties` (lines 67–95): own property names that do not
start with `"_"` and are not `"constructor"` (no callable check on this pass),
then, for each prototype-chain level, names passing the same two tests and
additionally `typeof proto[prop] !== "function"`; de-duplicated in insertion
order (the `Set`). -/
def getSerializableProperties (inst : Instance) : List String :=
  let own := (inst.ownProps.filter
    (fun kv => !startsWithUnderscore kv.1 && kv.1 != "constructor")).map Prod.fst
  let chain := inst.protoProps.foldl
    (fun acc level =>
      acc ++ (level.filter
        (fun kv => !startsWithUnderscore kv.1 && kv.1 != "constructor" &&
          !isFunction kv.2)).map Prod.fst)
    []
  (own ++ chain).foldl addUnique []

/-- Property lookup `this[propertyName]`: own properties first, then the
prototype chain, shallow to deep. -/
def propValue (inst : Instance) (p : String) : Option JSValue :=
  match inst.ownProps.find? (fun kv => kv.1 == p) with
  | some kv => some kv.2
  | none =>
    (inst.protoProps.foldl
      (fun acc level => acc.orElse (fun _ => (level.find? (fun kv => kv.1 == p)).map Prod.snd))
      none)

/-- The decorator's options object (`PersistableOptions`): `exclude`
(default `[]`), `include` (optional; called `includeL` since `include` is a
Lean keyword), and `prefix` (default `""`; called `pfx`). -/
structure PersistableOptions where
  exclude : List String := []
  includeL : Option (List String) := none
  pfx : String := ""

/-- Whether `setupPropertyPersistence` (lines 47–65) wraps the discovered name
`p`: skipped when `exclude.includes(p)`, when `include` is given and
`!include.includes(p)` (the `exclude` test runs first), or when
`typeof this[p] === "function"`. -/
def shouldWrap (opts : PersistableOptions) (inst : Instance) (p : String) : Bool :=
  !opts.exclude.contains p &&
  (match opts.includeL with
   | none => true
   | some inc => inc.contains p) &&
  !(match propValue inst p with
    | some v => isFunction v
    | none => false)

/-- The names `setupPropertyPersistence` hands to `makePropertyPersistent`. -/
def wrappedProps (opts : PersistableOptions) (inst : Instance) : List String :=
  (getSerializableProperties inst).filter (shouldWrap opts inst)

/-! ## The backing store (`_persisted_kv`) -/

/-- The `_persisted_kv` table: rows keyed by `key TEXT PRIMARY KEY`; the
`value TEXT` column is kept as the parse of its serialized text (a JSON
tree), which is the only view the engine ever takes of it. -/
structure Store where
  rows : List (String × JSValue)

/-- `SELECT value FROM _persisted_kv WHERE key = ?`. -/
def Store.lookup (st : Store) (k : String) : Option JSValue :=
  (st.rows.find? (fun r => r.1 == k)).map Prod.snd

/-- `INSERT OR REPLACE INTO _persisted_kv (key, value, updated_at) VALUES …`. -/
def Store.upsert (st : Store) (k : String) (v : JSValue) : Store :=
  ⟨(k, v) :: st.rows.filter (fun r => r.1 != k)⟩

/-! ## Per-field interceptor (`makePropertyPersistent`, lines 97–173) -/

/-- The closure state of one wrapped field: `value` (the in-memory cache,
`cachedValue`) and `initialized` (`false` = Uninitialized, `true` = Loaded). -/
structure FieldState where
  value : JSValue
  initialized : Bool

/-- The per-field constants fixed at wrap time: `storageKey = prefix +
propertyName`, the captured default (`ORIGINAL_PROPERTIES` entry), and the
truthiness of `state?.storage?.sql` (the same handle at every access). -/
structure FieldEnv where
  storageKey : String
  defaultValue : JSValue
  sqlAvailable : Bool

/-- Faults observable by the getter's `try`/`catch`: the `SELECT` (or the
`JSON.parse` of its result) throwing. -/
structure GetFaults where
  lookupThrows : Bool

/-- Faults observable by the setter's `try`/`catch`: the `INSERT OR REPLACE`
throwing. -/
structure SetFaults where
  upsertThrows : Bool

/-- What one call of the installed getter produces: the returned value, the
updated closure state, how many store lookups were issued, and whether a
load-failure warning was logged. The getter never writes to the store. -/
structure GetResult where
  ret : JSValue
  field : FieldState
  lookups : Nat
  warned : Bool

/-- The installed getter (lines 107–137). If `initialized`, return `value`.
Otherwise, when `state?.storage?.sql` is truthy: look the key up; a row's
parsed value, or on a miss the captured default, becomes `value`; if the
`try` block throws, warn and take the default. When `sql` is falsy the body
is skipped and `value` is left as it is. In every uninitialized case
`initialized` becomes `true`, and the (possibly updated) `value` is
returned. -/
def getStep (env : FieldEnv) (flt : GetFaults) (store : Store)
    (fs : FieldState) : GetResult :=
  if fs.initialized then
    ⟨fs.value, fs, 0, false⟩
  else
    if env.sqlAvailable then
      if flt.lookupThrows then
        ⟨env.defaultValue, ⟨env.defaultValue, true⟩, 1, true⟩
      else
        match store.lookup env.storageKey with
        | some tree => ⟨tree, ⟨tree, true⟩, 1, false⟩
        | none => ⟨env.defaultValue, ⟨env.defaultValue, true⟩, 1, false⟩
    else
      ⟨fs.value, ⟨fs.value, true⟩, 0, false⟩

/-- What one call of the installed setter produces: the updated closure state,
the updated store, how many store statements were issued, whether the
non-serializable warning was logged, and whether an upsert failure was logged
as an error. -/
structure SetResult where
  field : FieldState
  store : Store
  upserts : Nat
  warned : Bool
  errored : Bool

/-- The installed setter (lines 139–168). Serializable `newValue`: set
`value = newValue`; then, when `sql` is truthy, issue the upsert with
`JSON.stringify(newValue)` — the statement throws when the fault flag is set,
or when `stringify` yields `undefined` (an unbindable parameter); the `catch`
logs and leaves the store unchanged. Non-serializable `newValue`: warn and
set `value = newValue` with no store access. `initialized` is never touched. -/
def setStep (env : FieldEnv) (flt : SetFaults) (store : Store)
    (fs : FieldState) (newValue : JSValue) : SetResult :=
  if isSerializable newValue then
    let fs' : FieldState := ⟨newValue, fs.initialized⟩
    if env.sqlAvailable then
      match toJson newValue with
      | some tree =>
        if flt.upsertThrows then
          ⟨fs', store, 1, false, true⟩
        else
          ⟨fs', store.upsert env.storageKey tree, 1, false, false⟩
      | none => ⟨fs', store, 1, false, true⟩
    else
      ⟨fs', store, 0, false, false⟩
  else
    ⟨⟨newValue, fs.initialized⟩, store, 0, true, false⟩

/-- One access to a wrapped field, for stating lifetime invariants. -/
inductive FieldOp where
  | read (gf : GetFaults)
  | write (v : JSValue) (sf : SetFaults)

/-- The field/store transition of one access. -/
def opStep (env : FieldEnv) (store : Store) (fs : FieldState) :
    FieldOp → FieldState × Store
  | .read gf => ((getStep env gf store fs).field, store)
  | .write v sf =>
    let r := setStep env sf store fs v
    (r.field, r.store)

/-! ## Attachment (constructor + `initializeStorage`, lines 18–45) -/

/-- What construction of a decorated instance yields: whether the
`CREATE TABLE` ran without error (`schemaOk`), and which fields were wrapped.
The constructor runs `initializeStorage` and `setupPropertyPersistence` only
when the first argument is an object with a `storage` member; a
`CREATE TABLE` failure is caught and logged, after which
`setupPropertyPersistence` still runs unconditionally. -/
structure AttachResult where
  schemaOk : Bool
  wrapped : List String

/-- The constructor sequence (lines 18–27) with `initializeStorage`
(lines 29–45): `hasStorage` is `args[0] && typeof args[0] === "object" &&
"storage" in args[0]`; `sqlAvailable` is the truthiness of
`state?.storage?.sql`; `schemaThrows` is the `CREATE TABLE` statement
throwing. -/
def attach (hasStorage sqlAvailable schemaThrows : Bool)
    (opts : PersistableOptions) (inst : Instance) : AttachResult :=
  if hasStorage then
    { schemaOk := sqlAvailable && !schemaThrows
      wrapped := wrappedProps opts inst }
  else
    { schemaOk := false, wrapped := [] }

/-- A whole sequence of accesses to one wrapped field, for lifetime
invariants. -/
def runOps (env : FieldEnv) : List FieldOp → Store → FieldState → FieldState × Store
  | [], store, fs => (fs, store)
  | op :: ops, store, fs =>
    let r := opStep env store fs op
    runOps env ops r.2 r.1

mutual

/-- The Validator characterization exactly as the specification states it:
true for `null` and `undefined`, strings, numbers, booleans, arrays all of
whose elements are serializable, plain keyed mappings all of whose values are
serializable, date values, and values exposing a `toJSON` conversion; false
for every other value (in particular callables that expose no `toJSON`). -/
def isSerializableSpec : JSValue → Bool
  | .vNull => true
  | .vUndefined => true
  | .vStr _ => true
  | .vNum _ => true
  | .vNumNonFinite => true
  | .vBool _ => true
  | .vArr xs => isSerializableSpecList xs
  | .vObj fs => isSerializableSpecFields fs
  | .vDate _ => true
  | .vToJSONObj _ => true
  | .vFun => false
  | .vFunToJSON _ => true
  | .vClassInst _ => false

/-- All elements serializable, per the specification's words. -/
def isSerializableSpecList : List JSValue → Bool
  | [] => true
  | x :: xs => isSerializableSpec x && isSerializableSpecList xs

/-- All mapping values serializable, per the specification's words. -/
def isSerializableSpecFields : List (String × JSValue) → Bool
  | [] => true
  | kv :: fs => isSerializableSpec kv.2 && isSerializableSpecFields fs

end

/-! ## Helper lemmas -/

mutual

/-- JSON-faithful values pass `isSerializable`. -/
theorem jsonFaithful_isSerializable :
    ∀ v, jsonFaithful v = true → isSerializable v = true
  | .vNull, _ => rfl
  | .vStr _, _ => rfl
  | .vNum _, _ => rfl
  | .vBool _, _ => rfl
  | .vArr xs, h => by
    have hx : jsonFaithfulList xs = true := by simpa [jsonFaithful] using h
    simpa [isSerializable] using jsonFaithfulList_isSerializableList xs hx
  | .vObj fs, h => by
    have hx : jsonFaithfulFields fs = true := by simpa [jsonFaithful] using h
    simpa [isSerializable] using jsonFaithfulFields_isSerializableFields fs hx

/-- Elementwise version for arrays. -/
theorem jsonFaithfulList_isSerializableList :
    ∀ xs, jsonFaithfulList xs = true → isSerializableList xs = true
  | [], _ => rfl
  | x :: xs, h => by
    have h1 : jsonFaithful x = true := by
      have := h; simp [jsonFaithfulList] at this; exact this.1
    have h2 : jsonFaithfulList xs = true := by
      have := h; simp [jsonFaithfulList] at this; exact this.2
    simp [isSerializableList, jsonFaithful_isSerializable x h1,
      jsonFaithfulList_isSerializableList xs h2]

/-- Valuewise version for plain objects. -/
theorem jsonFaithfulFields_isSerializableFields :
    ∀ fs, jsonFaithfulFields fs = true → isSerializableFields fs = true
  | [], _ => rfl
  | kv :: fs, h => by
    have h1 : jsonFaithful kv.2 = true := by
      have := h; simp [jsonFaithfulFields] at this; exact this.1
    have h2 : jsonFaithfulFields fs = true := by
      have := h; simp [jsonFaithfulFields] at this; exact this.2
    simp [isSerializableFields, jsonFaithful_isSerializable kv.2 h1,
      jsonFaithfulFields_isSerializableFields fs h2]

end

mutual

/-- On JSON-faithful values the serialize/deserialize round trip is the
identity. -/
theorem jsonFaithful_toJson : ∀ v, jsonFaithful v = true → toJson v = some v
  | .vNull, _ => rfl
  | .vStr _, _ => rfl
  | .vNum _, _ => rfl
  | .vBool _, _ => rfl
  | .vArr xs, h => by
    have hx : jsonFaithfulList xs = true := by simpa [jsonFaithful] using h
    simp [toJson, jsonFaithful_toJsonList xs hx]
  | .vObj fs, h => by
    have hx : jsonFaithfulFields fs = true := by simpa [jsonFaithful] using h
    simp [toJson, jsonFaithful_toJsonFields fs hx]

/-- Elementwise round trip for arrays. -/
theorem jsonFaithful_toJsonList :
    ∀ xs, jsonFaithfulList xs = true → toJsonList xs = xs
  | [], _ => rfl
  | x :: xs, h => by
    have h1 : jsonFaithful x = true := by
      have := h; simp [jsonFaithfulList] at this; exact this.1
    have h2 : jsonFaithfulList xs = true := by
      have := h; simp [jsonFaithfulList] at this; exact this.2
    simp [toJsonList, jsonFaithful_toJson x h1, jsonFaithful_toJsonList xs h2]

/-- Valuewise round trip for plain objects. -/
theorem jsonFaithful_toJsonFields :
    ∀ fs, jsonFaithfulFields fs = true → toJsonFields fs = fs
  | [], _ => rfl
  | kv :: fs, h => by
    have h1 : jsonFaithful kv.2 = true := by
      have := h; simp [jsonFaithfulFields] at this; exact this.1
    have h2 : jsonFaithfulFields fs = true := by
      have := h; simp [jsonFaithfulFields] at this; exact this.2
    cases kv with
    | mk k v =>
      simp [toJsonFields, jsonFaithful_toJson v h1, jsonFaithful_toJsonFields fs h2]

end

/-- An upsert is visible to a lookup of the same key. -/
theorem Store.lookup_upsert_self (st : Store) (k : String) (v : JSValue) :
    (st.upsert k v).lookup k = some v := by
  simp [Store.lookup, Store.upsert]

/-- The setter always installs `newValue` as the cached value, in every
branch (serializable or not, store reachable or not, fault or not). -/
theorem setStep_value (env : FieldEnv) (flt : SetFaults) (store : Store)
    (fs : FieldState) (v : JSValue) :
    (setStep env flt store fs v).field.value = v := by
  unfold setStep
  cases hs : isSerializable v <;> simp
  cases env.sqlAvailable <;> simp
  cases toJson v <;> simp
  cases flt.upsertThrows <;> simp

/-- The setter never touches the `initialized` flag. -/
theorem setStep_initialized (env : FieldEnv) (flt : SetFaults) (store : Store)
    (fs : FieldState) (v : JSValue) :
    (setStep env flt store fs v).field.initialized = fs.initialized := by
  unfold setStep
  cases hs : isSerializable v <;> simp
  cases env.sqlAvailable <;> simp
  cases toJson v <;> simp
  cases flt.upsertThrows <;> simp

/-- The getter leaves the field Loaded, in every branch. -/
theorem getStep_initialized (env : FieldEnv) (flt : GetFaults) (store : Store)
    (fs : FieldState) :
    (getStep env flt store fs).field.initialized = true := by
  unfold getStep
  cases hi : fs.initialized <;> simp [hi]
  cases env.sqlAvailable <;> simp
  cases flt.lookupThrows <;> simp
  cases store.lookup env.storageKey <;> simp

/-- A fold of `addUnique` only ever holds names from its seed or its input. -/
theorem mem_foldl_addUnique {p : String} :
    ∀ (l acc : List String), p ∈ l.foldl addUnique acc → p ∈ acc ∨ p ∈ l := by
  intro l
  induction l with
  | nil => intro acc h; exact Or.inl h
  | cons x xs ih =>
    intro acc h
    rcases ih (addUnique acc x) h with h' | h'
    · cases hc : acc.contains x with
      | true =>
        rw [addUnique, hc] at h'
        exact Or.inl (by simpa using h')
      | false =>
        rw [addUnique, hc] at h'
        simp at h'
        rcases h' with h'' | h''
        · exact Or.inl h''
        · exact Or.inr (by simp [h''])
    · exact Or.inr (List.mem_cons_of_mem x h')

/-- A fold appending `f` of each level only ever holds names from its seed or
from some level. -/
theorem mem_foldl_append {α β : Type} {p : α} (f : β → List α) :
    ∀ (l : List β) (acc : List α),
      p ∈ l.foldl (fun a b => a ++ f b) acc → p ∈ acc ∨ ∃ b ∈ l, p ∈ f b := by
  intro l
  induction l with
  | nil => intro acc h; exact Or.inl h
  | cons x xs ih =>
    intro acc h
    rcases ih (acc ++ f x) h with h' | h'
    · rcases List.mem_append.mp h' with h'' | h''
      · exact Or.inl h''
      · exact Or.inr ⟨x, by simp, h''⟩
    · rcases h' with ⟨b, hb, hpb⟩
      exact Or.inr ⟨b, by simp [hb], hpb⟩

/-- Every name the Registry returns survived one of its two filters: it does
not start with `"_"` and is not `"constructor"`; names contributed by the
prototype chain additionally held a non-callable value at their level. -/
theorem mem_getSerializableProperties {inst : Instance} {p : String}
    (h : p ∈ getSerializableProperties inst) :
    startsWithUnderscore p = false ∧ p ≠ "constructor" := by
  unfold getSerializableProperties at h
  rcases mem_foldl_addUnique _ _ h with h' | h'
  · simp at h'
  · rcases List.mem_append.mp h' with h'' | h''
    · rcases List.mem_map.mp h'' with ⟨kv, hkv, rfl⟩
      have := (List.mem_filter.mp hkv).2
      simp at this
      exact ⟨this.1, this.2⟩
    · rcases mem_foldl_append _ _ _ h'' with h3 | ⟨level, _, h3⟩
      · simp at h3
      · rcases List.mem_map.mp h3 with ⟨kv, hkv, rfl⟩
        have := (List.mem_filter.mp hkv).2
        simp at this
        exact ⟨this.1.1, this.1.2⟩

/-- Wrapping = discovery + the three skip tests of
`setupPropertyPersistence`. -/
theorem mem_wrappedProps {opts : PersistableOptions} {inst : Instance}
    {p : String} :
    p ∈ wrappedProps opts inst ↔
      p ∈ getSerializableProperties inst ∧ shouldWrap opts inst p = true := by
  simp [wrappedProps, List.mem_filter]

mutual

/-- The source's `isSerializable` agrees with the specification's
characterization on every value. -/
theorem isSerializable_eq_spec : ∀ v, isSerializable v = isSerializableSpec v
  | .vNull => rfl
  | .vUndefined => rfl
  | .vStr _ => rfl
  | .vNum _ => rfl
  | .vNumNonFinite => rfl
  | .vBool _ => rfl
  | .vArr xs => by
    simp [isSerializable, isSerializableSpec, isSerializableList_eq_spec xs]
  | .vObj fs => by
    simp [isSerializable, isSerializableSpec, isSerializableFields_eq_spec fs]
  | .vDate _ => rfl
  | .vToJSONObj _ => rfl
  | .vFun => rfl
  | .vFunToJSON _ => rfl
  | .vClassInst _ => rfl

/-- Elementwise agreement for arrays. -/
theorem isSerializableList_eq_spec :
    ∀ xs, isSerializableList xs = isSerializableSpecList xs
  | [] => rfl
  | x :: xs => by
    simp [isSerializableList, isSerializableSpecList, isSerializable_eq_spec x,
      isSerializableList_eq_spec xs]

/-- Valuewise agreement for plain objects. -/
theorem isSerializableFields_eq_spec :
    ∀ fs, isSerializableFields fs = isSerializableSpecFields fs
  | [] => rfl
  | kv :: fs => by
    simp [isSerializableFields, isSerializableSpecFields,
      isSerializable_eq_spec kv.2, isSerializableFields_eq_spec fs]

end

/-- Any single access leaves a Loaded field Loaded. -/
theorem opStep_initialized_mono (env : FieldEnv) (store : Store)
    (fs : FieldState) (op : FieldOp) (h : fs.initialized = true) :
    ((opStep env store fs op).1).initialized = true := by
  cases op with
  | read gf => simpa [opStep] using getStep_initialized env gf store fs
  | write v sf => simpa [opStep, setStep_initialized] using h

/-- Over any access sequence a Loaded field stays Loaded. -/
theorem runOps_initialized_mono (env : FieldEnv) :
    ∀ (ops : List FieldOp) (store : Store) (fs : FieldState),
      fs.initialized = true → ((runOps env ops store fs).1).initialized = true := by
  intro ops
  induction ops with
  | nil => intro store fs h; simpa [runOps] using h
  | cons op ops ih =>
    intro store fs h
    simpa [runOps] using ih _ _ (opStep_initialized_mono env store fs op h)

/-! ## Claims -/

/-- C4: a read of a wrapped field while Uninitialized performs exactly one
store lookup by `storageKey`; a row's deserialized value, on a miss the
wrap-time default, and on a thrown lookup (logged as a warning) the wrap-time
default becomes the cached value; in all three cases the field transitions to
Loaded and the read returns the cached value, and every subsequent read
returns the cached value without touching the store. -/
theorem c4_first_read (env : FieldEnv) (gf gf2 : GetFaults)
    (store store2 : Store) (fs : FieldState)
    (hu : fs.initialized = false) (hsql : env.sqlAvailable = true) :
    let r := getStep env gf store fs
    r.lookups = 1 ∧
    r.field.initialized = true ∧
    r.ret = r.field.value ∧
    (gf.lookupThrows = true → r.field.value = env.defaultValue ∧ r.warned = true) ∧
    (gf.lookupThrows = false →
      ∀ tree, store.lookup env.storageKey = some tree → r.field.value = tree) ∧
    (gf.lookupThrows = false → store.lookup env.storageKey = none →
      r.field.value = env.defaultValue) ∧
    (getStep env gf2 store2 r.field).lookups = 0 ∧
    (getStep env gf2 store2 r.field).ret = r.field.value := by
  cases ht : gf.lookupThrows <;>
    cases hl : store.lookup env.storageKey <;>
      simp [getStep, hu, hsql, ht, hl]

/-- Witness for C4: a concrete hit, on key `"k"` holding `3`. -/
theorem c4_first_read_witness :
    (⟨JSValue.vNum 0, false⟩ : FieldState).initialized = false ∧
    (⟨"k", JSValue.vNum 0, true⟩ : FieldEnv).sqlAvailable = true ∧
    (let r := getStep ⟨"k", JSValue.vNum 0, true⟩ ⟨false⟩
        ⟨[("k", JSValue.vNum 3)]⟩ ⟨JSValue.vNum 0, false⟩
     r.lookups = 1 ∧
     r.field.initialized = true ∧
     r.ret = r.field.value ∧
     ((false : Bool) = true → r.field.value = JSValue.vNum 0 ∧ r.warned = true) ∧
     ((false : Bool) = false →
       ∀ tree, (Store.lookup ⟨[("k", JSValue.vNum 3)]⟩ "k") = some tree →
         r.field.value = tree) ∧
     ((false : Bool) = false → (Store.lookup ⟨[("k", JSValue.vNum 3)]⟩ "k") = none →
       r.field.value = JSValue.vNum 0) ∧
     (getStep ⟨"k", JSValue.vNum 0, true⟩ ⟨false⟩ ⟨[]⟩ r.field).lookups = 0 ∧
     (getStep ⟨"k", JSValue.vNum 0, true⟩ ⟨false⟩ ⟨[]⟩ r.field).ret = r.field.value) :=
  ⟨rfl, rfl,
    c4_first_read ⟨"k", JSValue.vNum 0, true⟩ ⟨false⟩ ⟨false⟩
      ⟨[("k", JSValue.vNum 3)]⟩ ⟨[]⟩ ⟨JSValue.vNum 0, false⟩ rfl rfl⟩

/-- C5: the per-field state goes Uninitialized → Loaded at most once and only
through a read: a write never changes the flag, whatever its value or store
outcome; a read always leaves the field Loaded; once Loaded the field stays
Loaded across any access sequence. -/
theorem c5_state_transition (env : FieldEnv) (store : Store) (fs : FieldState)
    (op : FieldOp) (ops : List FieldOp) :
    (∀ v sf, op = FieldOp.write v sf →
      ((opStep env store fs op).1).initialized = fs.initialized) ∧
    (fs.initialized = true → ((opStep env store fs op).1).initialized = true) ∧
    (∀ gf, op = FieldOp.read gf → ((opStep env store fs op).1).initialized = true) ∧
    (fs.initialized = true → ((runOps env ops store fs).1).initialized = true) := by
  refine ⟨?_, ?_, ?_, ?_⟩
  · rintro v sf rfl
    simpa [opStep] using setStep_initialized env sf store fs v
  · exact opStep_initialized_mono env store fs op
  · rintro gf rfl
    simpa [opStep] using getStep_initialized env gf store fs
  · exact runOps_initialized_mono env ops store fs

/-- Witness for C5: a write to an Uninitialized field leaves it
Uninitialized, and a Loaded field survives a read sequence. -/
theorem c5_state_transition_witness :
    ((FieldOp.write (JSValue.vNum 1) ⟨false⟩ : FieldOp) =
      FieldOp.write (JSValue.vNum 1) ⟨false⟩) ∧
    ((opStep ⟨"k", JSValue.vNull, true⟩ ⟨[]⟩ ⟨JSValue.vNull, false⟩
      (FieldOp.write (JSValue.vNum 1) ⟨false⟩)).1).initialized = false ∧
    ((⟨JSValue.vNull, true⟩ : FieldState).initialized = true ∧
      ((runOps ⟨"k", JSValue.vNull, true⟩ [FieldOp.read ⟨false⟩] ⟨[]⟩
        ⟨JSValue.vNull, true⟩).1).initialized = true) :=
  ⟨rfl,
   (c5_state_transition ⟨"k", JSValue.vNull, true⟩ ⟨[]⟩ ⟨JSValue.vNull, false⟩
      (FieldOp.write (JSValue.vNum 1) ⟨false⟩) []).1 (JSValue.vNum 1) ⟨false⟩ rfl,
   rfl,
   (c5_state_transition ⟨"k", JSValue.vNull, true⟩ ⟨[]⟩ ⟨JSValue.vNull, true⟩
      (FieldOp.read ⟨false⟩) [FieldOp.read ⟨false⟩]).2.2.2 rfl⟩

/-- C6: writing a non-serializable value sets the cached value to exactly
that value, logs the non-serializable warning, issues no store statement,
leaves every store row (for every key) unchanged, and does not touch the
state flag. -/
theorem c6_nonserializable_write (env : FieldEnv) (flt : SetFaults)
    (store : Store) (fs : FieldState) (w : JSValue)
    (h : isSerializable w = false) :
    let r := setStep env flt store fs w
    r.field.value = w ∧ r.warned = true ∧ r.upserts = 0 ∧
    r.store = store ∧ r.field.initialized = fs.initialized := by
  simp [setStep, h]

/-- Witness for C6: writing a bare callable. -/
theorem c6_nonserializable_write_witness :
    isSerializable JSValue.vFun = false ∧
    (let r := setStep ⟨"k", JSValue.vNull, true⟩ ⟨false⟩ ⟨[]⟩
        ⟨JSValue.vNull, false⟩ JSValue.vFun
     r.field.value = JSValue.vFun ∧ r.warned = true ∧ r.upserts = 0 ∧
     r.store = ⟨[]⟩ ∧ r.field.initialized = false) :=
  ⟨rfl,
   c6_nonserializable_write ⟨"k", JSValue.vNull, true⟩ ⟨false⟩ ⟨[]⟩
     ⟨JSValue.vNull, false⟩ JSValue.vFun rfl⟩

/-- C9: the Validator returns true exactly for null and undefined, strings,
numbers, booleans, arrays all of whose elements are serializable, plain keyed
mappings all of whose values are serializable, date values, and values
exposing a `toJSON` conversion, and false for every other value (in
particular callables without a `toJSON`); as a Lean function it is pure and
total by construction. -/
theorem c9_validator_characterization :
    ∀ v, isSerializable v = isSerializableSpec v :=
  isSerializable_eq_spec

/-- C1 is false as stated: on a still-Uninitialized field whose upsert
failed, the immediately following read performs the first-load lookup, finds
no row, and adopts the wrap-time default — `0`, not the just-written `5`. -/
theorem c1_counterexample :
    isSerializable (JSValue.vNum 5) = true ∧
    (let env : FieldEnv := ⟨"counter", JSValue.vNum 0, true⟩
     let r := setStep env ⟨true⟩ ⟨[]⟩ ⟨JSValue.vNum 0, false⟩ (JSValue.vNum 5)
     r.field.value = JSValue.vNum 5 ∧
     (getStep env ⟨false⟩ r.store r.field).ret = JSValue.vNum 0 ∧
     (getStep env ⟨false⟩ r.store r.field).ret ≠ JSValue.vNum 5) := by
  refine ⟨rfl, rfl, rfl, ?_⟩
  intro h
  have h' : JSValue.vNum 0 = JSValue.vNum 5 := h
  injection h' with hn
  exact absurd hn (by norm_num)

/-- C1 (amended): within one live instance, a write of a serializable value
followed immediately by a read of the same field returns that value whenever
the field is already Loaded, or the storage handle exposes no SQL facility —
independent of store faults. When the field is still Uninitialized and SQL is
available, the first read re-hydrates from the store instead, and returns the
written value only via the freshly upserted row. -/
theorem c1_amended (env : FieldEnv) (sf : SetFaults) (gf : GetFaults)
    (store : Store) (fs : FieldState) (v : JSValue)
    (hv : isSerializable v = true)
    (h : fs.initialized = true ∨ env.sqlAvailable = false) :
    let r := setStep env sf store fs v
    (getStep env gf r.store r.field).ret = v := by
  have hval := setStep_value env sf store fs v
  have hinit := setStep_initialized env sf store fs v
  rcases h with h | h
  · simp [getStep, hinit, h, hval]
  · cases hi : fs.initialized <;> simp [getStep, hinit, hi, h, hval]

/-- Witness for C1 (amended): a Loaded field, upsert failing. -/
theorem c1_amended_witness :
    (isSerializable (JSValue.vNum 7) = true ∧
      ((⟨JSValue.vNull, true⟩ : FieldState).initialized = true ∨
        (⟨"k", JSValue.vNull, true⟩ : FieldEnv).sqlAvailable = false)) ∧
    (let r := setStep ⟨"k", JSValue.vNull, true⟩ ⟨true⟩ ⟨[]⟩
        ⟨JSValue.vNull, true⟩ (JSValue.vNum 7)
     (getStep ⟨"k", JSValue.vNull, true⟩ ⟨false⟩ r.store r.field).ret =
       JSValue.vNum 7) :=
  ⟨⟨rfl, Or.inl rfl⟩,
   c1_amended ⟨"k", JSValue.vNull, true⟩ ⟨true⟩ ⟨false⟩ ⟨[]⟩
     ⟨JSValue.vNull, true⟩ (JSValue.vNum 7) rfl (Or.inl rfl)⟩

/-- C2 is false as stated, twice over: a `Date` passes `isSerializable`, its
upsert succeeds, but a fresh instance bound to the same store reads back the
ISO string — `deserialize (serialize V)` is a string, not the `Date` `V`;
and a non-finite number (`NaN`, `±Infinity`) passes the `typeof` number
check, serializes to the text `null`, and a fresh instance reads back
`null`, not the number. -/
theorem c2_counterexample :
    isSerializable (JSValue.vDate 0) = true ∧
    toJson (JSValue.vDate 0) ≠ some (JSValue.vDate 0) ∧
    (let env : FieldEnv := ⟨"d", JSValue.vNull, true⟩
     let r := setStep env ⟨false⟩ ⟨[]⟩ ⟨JSValue.vNull, false⟩ (JSValue.vDate 0)
     r.errored = false ∧
     (getStep env ⟨false⟩ r.store ⟨JSValue.vNull, false⟩).ret =
       JSValue.vStr (dateToIso 0) ∧
     (getStep env ⟨false⟩ r.store ⟨JSValue.vNull, false⟩).ret ≠
       JSValue.vDate 0) ∧
    isSerializable JSValue.vNumNonFinite = true ∧
    toJson JSValue.vNumNonFinite ≠ some JSValue.vNumNonFinite ∧
    (let env2 : FieldEnv := ⟨"n", JSValue.vUndefined, true⟩
     let r2 := setStep env2 ⟨false⟩ ⟨[]⟩ ⟨JSValue.vUndefined, false⟩
       JSValue.vNumNonFinite
     r2.errored = false ∧
     (getStep env2 ⟨false⟩ r2.store ⟨JSValue.vUndefined, false⟩).ret =
       JSValue.vNull ∧
     (getStep env2 ⟨false⟩ r2.store ⟨JSValue.vUndefined, false⟩).ret ≠
       JSValue.vNumNonFinite) := by
  refine ⟨rfl, ?_, ⟨rfl, rfl, ?_⟩, rfl, ?_, rfl, rfl, ?_⟩
  · intro h
    have h' : some (JSValue.vStr (dateToIso 0)) = some (JSValue.vDate 0) := h
    injection h' with h''
    exact JSValue.noConfusion h''
  · intro h
    have h' : JSValue.vStr (dateToIso 0) = JSValue.vDate 0 := h
    exact JSValue.noConfusion h'
  · intro h
    have h' : some JSValue.vNull = some JSValue.vNumNonFinite := h
    injection h' with h''
    exact JSValue.noConfusion h''
  · intro h
    have h' : JSValue.vNull = JSValue.vNumNonFinite := h
    exact JSValue.noConfusion h'

/-- C2 (amended): the durability round trip holds for every JSON-faithful
serializable value (null, strings, finite numbers, booleans, and arrays and
plain objects built from such): writing such a `V` with a successful upsert
and reading the field on a fresh instance bound to the same store and key
returns `V`; for such values `deserialize (serialize V) = V`. Values that
`isSerializable` accepts beyond that set (`Date`, `toJSON` carriers,
`undefined`, and the non-finite numbers `NaN` and `±Infinity`) do not
round-trip identically: a `Date` reads back as its ISO string, a non-finite
number as `null`. -/
theorem c2_amended (key : String) (dflt dflt2 : JSValue) (store : Store)
    (fs : FieldState) (v : JSValue) (hv : jsonFaithful v = true) :
    toJson v = some v ∧
    isSerializable v = true ∧
    (let r := setStep ⟨key, dflt, true⟩ ⟨false⟩ store fs v
     r.errored = false ∧
     (getStep ⟨key, dflt2, true⟩ ⟨false⟩ r.store ⟨dflt2, false⟩).ret = v) := by
  have hj := jsonFaithful_toJson v hv
  have hs := jsonFaithful_isSerializable v hv
  refine ⟨hj, hs, ?_, ?_⟩
  · simp [setStep, hs, hj]
  · simp [setStep, getStep, hs, hj, Store.lookup_upsert_self]

/-- Witness for C2 (amended): the object `{a: 1}` round-trips. -/
theorem c2_amended_witness :
    jsonFaithful (JSValue.vObj [("a", JSValue.vNum 1)]) = true ∧
    (toJson (JSValue.vObj [("a", JSValue.vNum 1)]) =
      some (JSValue.vObj [("a", JSValue.vNum 1)]) ∧
     isSerializable (JSValue.vObj [("a", JSValue.vNum 1)]) = true ∧
     (let r := setStep ⟨"k", JSValue.vNull, true⟩ ⟨false⟩ ⟨[]⟩
        ⟨JSValue.vNull, false⟩ (JSValue.vObj [("a", JSValue.vNum 1)])
      r.errored = false ∧
      (getStep ⟨"k", JSValue.vNull, true⟩ ⟨false⟩ r.store
        ⟨JSValue.vNull, false⟩).ret = JSValue.vObj [("a", JSValue.vNum 1)])) :=
  ⟨rfl,
   c2_amended "k" JSValue.vNull JSValue.vNull ⟨[]⟩ ⟨JSValue.vNull, false⟩
     (JSValue.vObj [("a", JSValue.vNum 1)]) rfl⟩

/-- C3 is false as stated: the `exclude` test runs before the `include` test,
so a discovered, non-callable name listed in both `include` and `exclude` is
not wrapped. -/
theorem c3_counterexample :
    (let opts : PersistableOptions := ⟨["a"], some ["a"], ""⟩
     let inst : Instance := ⟨[("a", JSValue.vNum 0)], []⟩
     getSerializableProperties inst = ["a"] ∧
     isFunction (JSValue.vNum 0) = false ∧
     wrappedProps opts inst = []) := by
  refine ⟨?_, rfl, ?_⟩ <;> decide

/-- C3 (amended): when `include` is present, a name is wrapped exactly when
it is discovered, in `include`, not in `exclude`, and its current value is
not callable; in particular a name absent from `include` is never wrapped,
but membership in `include` does not override `exclude`. -/
theorem c3_amended (opts : PersistableOptions) (inst : Instance)
    (inc : List String) (p : String) (hinc : opts.includeL = some inc) :
    p ∈ wrappedProps opts inst ↔
      (p ∈ getSerializableProperties inst ∧ p ∈ inc ∧ p ∉ opts.exclude ∧
        ∀ v, propValue inst p = some v → isFunction v = false) := by
  rw [mem_wrappedProps]
  unfold shouldWrap
  rw [hinc]
  rcases hpv : propValue inst p with _ | v <;>
    simp [hpv, and_assoc] <;> intro _ <;> tauto

/-- Witness for C3 (amended): `"b"` included, not excluded, non-callable. -/
theorem c3_amended_witness :
    (⟨[], some ["b"], ""⟩ : PersistableOptions).includeL = some ["b"] ∧
    ("b" ∈ wrappedProps ⟨[], some ["b"], ""⟩ ⟨[("b", JSValue.vNum 1)], []⟩ ↔
      ("b" ∈ getSerializableProperties ⟨[("b", JSValue.vNum 1)], []⟩ ∧
        "b" ∈ ["b"] ∧ "b" ∉ ([] : List String) ∧
        ∀ v, propValue ⟨[("b", JSValue.vNum 1)], []⟩ "b" = some v →
          isFunction v = false)) :=
  ⟨rfl,
   c3_amended ⟨[], some ["b"], ""⟩ ⟨[("b", JSValue.vNum 1)], []⟩ ["b"] "b" rfl⟩

/-- C7 is false as stated: after a failed `CREATE TABLE` the constructor
still wraps the fields, and a first read and a write on a wrapped field each
still issue a store statement (one lookup, one upsert) — not zero. -/
theorem c7_counterexample :
    (let inst : Instance := ⟨[("counter", JSValue.vNum 0)], []⟩
     let r := attach true true true ⟨[], none, ""⟩ inst
     r.schemaOk = false ∧
     r.wrapped = ["counter"] ∧
     (getStep ⟨"counter", JSValue.vNum 0, true⟩ ⟨true⟩ ⟨[]⟩
       ⟨JSValue.vNum 0, false⟩).lookups = 1 ∧
     (setStep ⟨"counter", JSValue.vNum 0, true⟩ ⟨true⟩ ⟨[]⟩
       ⟨JSValue.vNum 0, false⟩ (JSValue.vNum 5)).upserts = 1) := by
  refine ⟨rfl, ?_, rfl, rfl⟩
  decide

/-- C7 (amended): a schema-initialization failure is logged and construction
proceeds: exactly the same fields are wrapped as on success, and subsequent
reads and writes still issue their store statements; when those statements
themselves fail (they are caught), an Uninitialized read falls back to the
wrap-time default and a write updates only the in-memory value, leaving the
store unchanged — so the fields degrade to in-memory behavior, but
persistence is not structurally disabled. -/
theorem c7_amended (opts : PersistableOptions) (inst : Instance)
    (env : FieldEnv) (store : Store) (fs : FieldState) (v : JSValue)
    (hsql : env.sqlAvailable = true) (hu : fs.initialized = false) :
    (attach true true true opts inst).schemaOk = false ∧
    (attach true true true opts inst).wrapped =
      (attach true true false opts inst).wrapped ∧
    (getStep env ⟨true⟩ store fs).lookups = 1 ∧
    (getStep env ⟨true⟩ store fs).ret = env.defaultValue ∧
    (setStep env ⟨true⟩ store fs v).upserts =
      (setStep env ⟨false⟩ store fs v).upserts ∧
    (setStep env ⟨true⟩ store fs v).store = store ∧
    (setStep env ⟨true⟩ store fs v).field.value = v := by
  refine ⟨rfl, rfl, ?_, ?_, ?_, ?_, ?_⟩
  · simp [getStep, hu, hsql]
  · simp [getStep, hu, hsql]
  · cases hs : isSerializable v <;> cases ht : toJson v <;>
      simp [setStep, hs, ht, hsql]
  · cases hs : isSerializable v <;> cases ht : toJson v <;>
      simp [setStep, hs, ht, hsql]
  · exact setStep_value env ⟨true⟩ store fs v

/-- Witness for C7 (amended): one field, one write of `5`. -/
theorem c7_amended_witness :
    (⟨"counter", JSValue.vNum 0, true⟩ : FieldEnv).sqlAvailable = true ∧
    (⟨JSValue.vNum 0, false⟩ : FieldState).initialized = false ∧
    ((attach true true true ⟨[], none, ""⟩ ⟨[("counter", JSValue.vNum 0)], []⟩).schemaOk = false ∧
     (attach true true true ⟨[], none, ""⟩ ⟨[("counter", JSValue.vNum 0)], []⟩).wrapped =
       (attach true true false ⟨[], none, ""⟩ ⟨[("counter", JSValue.vNum 0)], []⟩).wrapped ∧
     (getStep ⟨"counter", JSValue.vNum 0, true⟩ ⟨true⟩ ⟨[]⟩
       ⟨JSValue.vNum 0, false⟩).lookups = 1 ∧
     (getStep ⟨"counter", JSValue.vNum 0, true⟩ ⟨true⟩ ⟨[]⟩
       ⟨JSValue.vNum 0, false⟩).ret = JSValue.vNum 0 ∧
     (setStep ⟨"counter", JSValue.vNum 0, true⟩ ⟨true⟩ ⟨[]⟩
       ⟨JSValue.vNum 0, false⟩ (JSValue.vNum 5)).upserts =
       (setStep ⟨"counter", JSValue.vNum 0, true⟩ ⟨false⟩ ⟨[]⟩
         ⟨JSValue.vNum 0, false⟩ (JSValue.vNum 5)).upserts ∧
     (setStep ⟨"counter", JSValue.vNum 0, true⟩ ⟨true⟩ ⟨[]⟩
       ⟨JSValue.vNum 0, false⟩ (JSValue.vNum 5)).store = ⟨[]⟩ ∧
     (setStep ⟨"counter", JSValue.vNum 0, true⟩ ⟨true⟩ ⟨[]⟩
       ⟨JSValue.vNum 0, false⟩ (JSValue.vNum 5)).field.value = JSValue.vNum 5) :=
  ⟨rfl, rfl,
   c7_amended ⟨[], none, ""⟩ ⟨[("counter", JSValue.vNum 0)], []⟩
     ⟨"counter", JSValue.vNum 0, true⟩ ⟨[]⟩ ⟨JSValue.vNum 0, false⟩
     (JSValue.vNum 5) rfl rfl⟩

/-- C8 is false as stated: an own property holding a callable (the example's
`tempCallback`) does appear in the Registry's output — the own-property pass
has no callable filter — even though it is never wrapped. -/
theorem c8_counterexample :
    (let inst : Instance := ⟨[("tempCallback", JSValue.vFun)], []⟩
     isFunction JSValue.vFun = true ∧
     getSerializableProperties inst = ["tempCallback"] ∧
     wrappedProps ⟨[], none, ""⟩ inst = []) := by
  refine ⟨rfl, ?_, ?_⟩ <;> decide

/-- C8 (amended): a name beginning with the underscore marker or equal to
`constructor` never appears in the Registry's output and is never wrapped;
a name whose current value is callable is never wrapped (though, when it is
an own property, it does appear in the Registry's output). -/
theorem c8_amended (opts : PersistableOptions) (inst : Instance) (p : String) :
    ((startsWithUnderscore p = true ∨ p = "constructor") →
      p ∉ getSerializableProperties inst ∧ p ∉ wrappedProps opts inst) ∧
    (∀ v, propValue inst p = some v → isFunction v = true →
      p ∉ wrappedProps opts inst) := by
  constructor
  · intro hp
    have hg : p ∉ getSerializableProperties inst := by
      intro hmem
      rcases mem_getSerializableProperties hmem with ⟨h1, h2⟩
      rcases hp with hp | hp
      · rw [hp] at h1; exact Bool.noConfusion h1
      · exact h2 hp
    exact ⟨hg, fun hw => hg (mem_wrappedProps.mp hw).1⟩
  · intro v hv hf hw
    have hsw := (mem_wrappedProps.mp hw).2
    unfold shouldWrap at hsw
    rw [hv] at hsw
    simp [hf] at hsw

/-- Witness for C8 (amended): the marker name `"_internalState"` and the
callable-valued own property `"tempCallback"`. -/
theorem c8_amended_witness :
    ((startsWithUnderscore "_internalState" = true ∨
        "_internalState" = "constructor") ∧
      ("_internalState" ∉
          getSerializableProperties ⟨[("tempCallback", JSValue.vFun)], []⟩ ∧
        "_internalState" ∉
          wrappedProps ⟨[], none, ""⟩ ⟨[("tempCallback", JSValue.vFun)], []⟩)) ∧
    (propValue ⟨[("tempCallback", JSValue.vFun)], []⟩ "tempCallback" =
        some JSValue.vFun ∧
      isFunction JSValue.vFun = true ∧
      "tempCallback" ∉
        wrappedProps ⟨[], none, ""⟩ ⟨[("tempCallback", JSValue.vFun)], []⟩) :=
  ⟨⟨Or.inl (by decide),
    (c8_amended ⟨[], none, ""⟩ ⟨[("tempCallback", JSValue.vFun)], []⟩
      "_internalState").1 (Or.inl (by decide))⟩,
   ⟨rfl, rfl,
    (c8_amended ⟨[], none, ""⟩ ⟨[("tempCallback", JSValue.vFun)], []⟩
      "tempCallback").2 JSValue.vFun rfl rfl⟩⟩

/-- C10 is false as stated: a serializable `Date` written to a
still-Uninitialized field with a successful upsert is not returned by the
first read — the read adopts the deserialized row, which is the ISO string,
not the written `Date`. -/
theorem c10_counterexample :
    isSerializable (JSValue.vDate 5) = true ∧
    (let env : FieldEnv := ⟨"ts", JSValue.vUndefined, true⟩
     let r := setStep env ⟨false⟩ ⟨[]⟩ ⟨JSValue.vUndefined, false⟩ (JSValue.vDate 5)
     r.errored = false ∧
     (getStep env ⟨false⟩ r.store r.field).ret = JSValue.vStr (dateToIso 5) ∧
     (getStep env ⟨false⟩ r.store r.field).ret ≠ JSValue.vDate 5) := by
  refine ⟨rfl, rfl, rfl, ?_⟩
  intro h
  have h' : JSValue.vStr (dateToIso 5) = JSValue.vDate 5 := h
  exact JSValue.noConfusion h'

/-- C10 (amended): when a serializable value is written to a
still-Uninitialized field and the upsert succeeds, the first read adopts the
deserialized row the write produced — hence returns the written value exactly
when it is JSON-faithful; and the just-written in-memory value is discarded
in favor of the wrap-time default when the first read's lookup finds no row
(upsert failed, or the value was non-serializable, over an empty prior key)
or the lookup throws. -/
theorem c10_amended :
    (∀ (key : String) (dflt : JSValue) (store : Store) (fs : FieldState)
        (v tree : JSValue), fs.initialized = false → isSerializable v = true →
      toJson v = some tree →
      (getStep ⟨key, dflt, true⟩ ⟨false⟩
        (setStep ⟨key, dflt, true⟩ ⟨false⟩ store fs v).store
        (setStep ⟨key, dflt, true⟩ ⟨false⟩ store fs v).field).ret = tree) ∧
    (∀ (key : String) (dflt : JSValue) (store : Store) (fs : FieldState)
        (v : JSValue), fs.initialized = false → jsonFaithful v = true →
      (getStep ⟨key, dflt, true⟩ ⟨false⟩
        (setStep ⟨key, dflt, true⟩ ⟨false⟩ store fs v).store
        (setStep ⟨key, dflt, true⟩ ⟨false⟩ store fs v).field).ret = v) ∧
    (∀ (key : String) (dflt : JSValue) (store : Store) (fs : FieldState)
        (v : JSValue), fs.initialized = false → isSerializable v = true →
      store.lookup key = none →
      (getStep ⟨key, dflt, true⟩ ⟨false⟩
        (setStep ⟨key, dflt, true⟩ ⟨true⟩ store fs v).store
        (setStep ⟨key, dflt, true⟩ ⟨true⟩ store fs v).field).ret = dflt) ∧
    (∀ (key : String) (dflt : JSValue) (store : Store) (fs : FieldState)
        (v : JSValue) (sf : SetFaults), fs.initialized = false →
      (getStep ⟨key, dflt, true⟩ ⟨true⟩
        (setStep ⟨key, dflt, true⟩ sf store fs v).store
        (setStep ⟨key, dflt, true⟩ sf store fs v).field).ret = dflt) ∧
    (∀ (key : String) (dflt : JSValue) (store : Store) (fs : FieldState)
        (w : JSValue), fs.initialized = false → isSerializable w = false →
      store.lookup key = none →
      (getStep ⟨key, dflt, true⟩ ⟨false⟩
        (setStep ⟨key, dflt, true⟩ ⟨false⟩ store fs w).store
        (setStep ⟨key, dflt, true⟩ ⟨false⟩ store fs w).field).ret = dflt) := by
  refine ⟨?_, ?_, ?_, ?_, ?_⟩
  · intro key dflt store fs v tree hu hs ht
    have hinit := setStep_initialized ⟨key, dflt, true⟩ ⟨false⟩ store fs v
    simp [setStep, hs, ht] at hinit ⊢
    simp [getStep, hinit, hu, Store.lookup_upsert_self]
  · intro key dflt store fs v hu hf
    have hs := jsonFaithful_isSerializable v hf
    have ht := jsonFaithful_toJson v hf
    have hinit := setStep_initialized ⟨key, dflt, true⟩ ⟨false⟩ store fs v
    simp [setStep, hs, ht] at hinit ⊢
    simp [getStep, hinit, hu, Store.lookup_upsert_self]
  · intro key dflt store fs v hu hs hl
    cases ht : toJson v <;>
      simp [setStep, getStep, hs, ht, hu, hl]
  · intro key dflt store fs v sf hu
    have hinit := setStep_initialized ⟨key, dflt, true⟩ sf store fs v
    simp [getStep, hinit, hu]
  · intro key dflt store fs w hu hs hl
    simp [setStep, getStep, hs, hu, hl]

/-- Witness for C10 (amended): the faithful value `9` written to an
Uninitialized field with a successful upsert is returned by the first read. -/
theorem c10_amended_witness :
    ((⟨JSValue.vNull, false⟩ : FieldState).initialized = false ∧
      isSerializable (JSValue.vNum 9) = true ∧
      toJson (JSValue.vNum 9) = some (JSValue.vNum 9)) ∧
    (getStep ⟨"k", JSValue.vNull, true⟩ ⟨false⟩
      (setStep ⟨"k", JSValue.vNull, true⟩ ⟨false⟩ ⟨[]⟩
        ⟨JSValue.vNull, false⟩ (JSValue.vNum 9)).store
      (setStep ⟨"k", JSValue.vNull, true⟩ ⟨false⟩ ⟨[]⟩
        ⟨JSValue.vNull, false⟩ (JSValue.vNum 9)).field).ret = JSValue.vNum 9 :=
  ⟨⟨rfl, rfl, rfl⟩,
   c10_amended.1 "k" JSValue.vNull ⟨[]⟩ ⟨JSValue.vNull, false⟩
     (JSValue.vNum 9) (JSValue.vNum 9) rfl rfl rfl⟩

end Persistable
